import Mathlib

/-!
Verification of the flying/orbit camera controller in src/lib.rs.

The f32 arithmetic of the source is embedded over the real numbers: every
quaternion, vector and scalar operation below is the exact glam / bevy / Rust
formula with real-number arithmetic in place of IEEE floats.
-/

namespace FlyCam

noncomputable section

/-- The discrete input actions of the camera (enum FlyingCamAction in lib.rs). -/
inductive FlyingCamAction where
  | AdjustSpeed
  | Back
  | ClickHoldSecondary
  | Down
  | Focus
  | Forward
  | Left
  | Primary
  | Right
  | Secondary
  | Up
deriving DecidableEq

@[ext]
structure Vec2 where
  x : ℝ
  y : ℝ

@[ext]
structure Vec3 where
  x : ℝ
  y : ℝ
  z : ℝ

@[ext]
structure Quat where
  x : ℝ
  y : ℝ
  z : ℝ
  w : ℝ

def Vec2.zero : Vec2 := ⟨0, 0⟩

def Vec2.add (a b : Vec2) : Vec2 := ⟨a.x + b.x, a.y + b.y⟩

/-- glam Vec2::length_squared. -/
def Vec2.length_squared (v : Vec2) : ℝ := v.x * v.x + v.y * v.y

def Vec3.zero : Vec3 := ⟨0, 0, 0⟩

def Vec3.add (a b : Vec3) : Vec3 := ⟨a.x + b.x, a.y + b.y, a.z + b.z⟩

def Vec3.sub (a b : Vec3) : Vec3 := ⟨a.x - b.x, a.y - b.y, a.z - b.z⟩

def Vec3.neg (a : Vec3) : Vec3 := ⟨-a.x, -a.y, -a.z⟩

/-- Vec3 times a scalar on the right (glam impl Mul of f32 for Vec3). -/
def Vec3.muls (v : Vec3) (s : ℝ) : Vec3 := ⟨v.x * s, v.y * s, v.z * s⟩

/-- A scalar times a Vec3 (glam impl Mul of Vec3 for f32). -/
def Vec3.smul (s : ℝ) (v : Vec3) : Vec3 := ⟨s * v.x, s * v.y, s * v.z⟩

def Vec3.dot (a b : Vec3) : ℝ := a.x * b.x + a.y * b.y + a.z * b.z

def Vec3.cross (a b : Vec3) : Vec3 :=
  ⟨a.y * b.z - a.z * b.y, a.z * b.x - a.x * b.z, a.x * b.y - a.y * b.x⟩

/-- glam Vec3::length_squared. -/
def Vec3.length_squared (v : Vec3) : ℝ := v.dot v

/-- Componentwise maximum (glam Vec3::max). -/
def Vec3.vmax (a b : Vec3) : Vec3 := ⟨max a.x b.x, max a.y b.y, max a.z b.z⟩

/-- glam Vec3::normalize_or_zero: the unit vector in the same direction when the
length is positive, and the zero vector otherwise. -/
def Vec3.normalize_or_zero (v : Vec3) : Vec3 :=
  if 0 < Real.sqrt v.length_squared then v.muls (1 / Real.sqrt v.length_squared) else Vec3.zero

/-- The Hamilton product, exactly glam Quat::mul_quat. -/
def Quat.mul (a b : Quat) : Quat :=
  ⟨a.w * b.x + a.x * b.w + a.y * b.z - a.z * b.y,
   a.w * b.y + a.y * b.w + a.z * b.x - a.x * b.z,
   a.w * b.z + a.z * b.w + a.x * b.y - a.y * b.x,
   a.w * b.w - a.x * b.x - a.y * b.y - a.z * b.z⟩

/-- glam Quat::length_squared. -/
def Quat.length_squared (q : Quat) : ℝ := q.x * q.x + q.y * q.y + q.z * q.z + q.w * q.w

/-- glam Quat::normalize: each component divided by the length. -/
def Quat.normalize (q : Quat) : Quat :=
  ⟨q.x / Real.sqrt q.length_squared, q.y / Real.sqrt q.length_squared,
   q.z / Real.sqrt q.length_squared, q.w / Real.sqrt q.length_squared⟩

def Quat.conjugate (q : Quat) : Quat := ⟨-q.x, -q.y, -q.z, q.w⟩

/-- glam Quat::inverse: for the normalized quaternions the source feeds it,
this is the conjugate (glam returns the conjugate and asserts normalization). -/
def Quat.inverse (q : Quat) : Quat := q.conjugate

/-- glam Quat::xyz, the vector part. -/
def Quat.xyz (q : Quat) : Vec3 := ⟨q.x, q.y, q.z⟩

/-- glam Quat::from_rotation_x. -/
def Quat.from_rotation_x (angle : ℝ) : Quat :=
  ⟨Real.sin (angle / 2), 0, 0, Real.cos (angle / 2)⟩

/-- glam Quat::from_rotation_y. -/
def Quat.from_rotation_y (angle : ℝ) : Quat :=
  ⟨0, Real.sin (angle / 2), 0, Real.cos (angle / 2)⟩

/-- glam Quat::mul_vec3 as written in glam:
v * (w * w - b.dot b) + b * (v.dot b * 2) + (b.cross v) * (w * 2). -/
def Quat.mul_vec3 (q : Quat) (v : Vec3) : Vec3 :=
  ((v.muls (q.w * q.w - q.xyz.dot q.xyz)).add ((q.xyz).muls (v.dot q.xyz * 2))).add
    (((q.xyz).cross v).muls (q.w * 2))

/-- std::f32::consts::TAU. -/
def TAU : ℝ := 2 * Real.pi

/-- Rust f32::clamp: self.max(lo).min(hi). -/
def clampf (v lo hi : ℝ) : ℝ := min (max v lo) hi

/-- The yaw component extracted inside limit_pitch: the quaternion with zeroed
x and z and normalized y and w (lib.rs line 82). -/
def limit_pitch_qy (tq : Quat) : Quat := (Quat.mk 0 tq.y 0 tq.w).normalize

/-- The residual pitch quaternion inside limit_pitch: yaw removed from the
input (lib.rs line 84). -/
def limit_pitch_qp (tq : Quat) : Quat := (limit_pitch_qy tq).inverse.mul tq

/-- The Euler pitch angle extracted inside limit_pitch (lib.rs line 86):
Vec3::X.dot(qp.xyz()).asin().mul(2.0). -/
def limit_pitch_angle (tq : Quat) : ℝ :=
  Real.arcsin (Vec3.dot ⟨1, 0, 0⟩ (limit_pitch_qp tq).xyz) * 2

/-- TAU / 4, the clamp bound of limit_pitch (lib.rs line 88). -/
def quarter_tau : ℝ := TAU / 4

/-- The clamped pitch angle inside limit_pitch (lib.rs line 89). -/
def limit_pitch_clamped (tq : Quat) : ℝ :=
  clampf (limit_pitch_angle tq) (-quarter_tau) quarter_tau

/-- lib.rs limit_pitch: clamps the pitch component of a quaternion to
the range from -tau/4 to tau/4 and recomposes yaw times pitch. -/
def limit_pitch (tq : Quat) : Quat :=
  (limit_pitch_qy tq).mul (Quat.from_rotation_x (limit_pitch_clamped tq))

/-- lib.rs rotate_cam_quat: rotates a camera quat by a linear amount. -/
def rotate_cam_quat (window_size : Vec2) (motion : Vec2) (speed : ℝ) (tq : Quat) : Quat :=
  let delta_x := motion.x / window_size.x * TAU * speed
  let delta_y := motion.y / window_size.y * (TAU / 2) * speed
  let delta_yaw := Quat.from_rotation_y (-delta_x)
  let delta_pitch := Quat.from_rotation_x (-delta_y)
  let tq1 := delta_yaw.mul tq
  let tq2 := tq1.mul delta_pitch
  limit_pitch tq2

structure MovableCameraParams where
  default_speed : ℝ
  acceleration : ℝ
  slow_speed : ℝ
  scroll_snap : ℝ

/-- impl Default for MovableCameraParams. -/
def MovableCameraParams.default : MovableCameraParams := ⟨1, 1, 0.1, 1⟩

structure MovableCamera where
  speed : ℝ
  angular_speed : ℝ
  slow : Bool
  cursor_pos : Vec2
  focused : Bool

/-- impl Default for MovableCamera. -/
def MovableCamera.default : MovableCamera :=
  ⟨MovableCameraParams.default.default_speed, MovableCameraParams.default.default_speed,
   false, Vec2.zero, false⟩

/-- The pressed and just_pressed queries of leafwing ActionState, as the
source consumes them each frame. -/
structure ActionState where
  pressed : FlyingCamAction → Bool
  just_pressed : FlyingCamAction → Bool

/-- lib.rs net_movement. -/
def net_movement (action_state : ActionState) (negative positive : FlyingCamAction) : ℝ :=
  match action_state.pressed negative, action_state.pressed positive with
  | true, false => -1
  | false, true => 1
  | _, _ => 0

/-- bevy Transform (translation, rotation, scale). -/
@[ext]
structure Transform where
  translation : Vec3
  rotation : Quat
  scale : Vec3

/-- bevy Transform::default: identity transform. -/
def Transform.default : Transform := ⟨Vec3.zero, ⟨0, 0, 0, 1⟩, ⟨1, 1, 1⟩⟩

def Transform.local_x (t : Transform) : Vec3 := t.rotation.mul_vec3 ⟨1, 0, 0⟩

def Transform.local_y (t : Transform) : Vec3 := t.rotation.mul_vec3 ⟨0, 1, 0⟩

def Transform.local_z (t : Transform) : Vec3 := t.rotation.mul_vec3 ⟨0, 0, 1⟩

/-- bevy Transform::left = -local_x. -/
def Transform.left (t : Transform) : Vec3 := t.local_x.neg

/-- bevy Transform::up = local_y. -/
def Transform.up (t : Transform) : Vec3 := t.local_y

/-- bevy Transform::forward = -local_z. -/
def Transform.forward (t : Transform) : Vec3 := t.local_z.neg

/-- bevy Transform::back = local_z. -/
def Transform.back (t : Transform) : Vec3 := t.local_z

/-- The six-way directional disjunction tested twice in lib.rs
(adjust_cam_speed lines 186-191 and movable_camera lines 221-226). -/
def any_direction_pressed (action_state : ActionState) : Bool :=
  action_state.pressed FlyingCamAction.Forward || action_state.pressed FlyingCamAction.Back ||
  action_state.pressed FlyingCamAction.Left || action_state.pressed FlyingCamAction.Right ||
  action_state.pressed FlyingCamAction.Up || action_state.pressed FlyingCamAction.Down

/-- lib.rs adjust_cam_speed, as a pure frame step on the MovableCamera state.
Inputs are what the bevy system reads: the params resource, the frame's
elapsed seconds and the action state. -/
def adjust_cam_speed (cam_params : MovableCameraParams) (delta_seconds : ℝ)
    (action_state : ActionState) (cam : MovableCamera) : MovableCamera :=
  let cam :=
    if action_state.just_pressed FlyingCamAction.AdjustSpeed then
      let cam := { cam with slow := !cam.slow }
      if !cam.slow then
        { cam with speed := cam_params.default_speed, angular_speed := cam_params.default_speed }
      else cam
    else cam
  if cam.slow then
    { cam with speed := cam_params.slow_speed, angular_speed := cam_params.slow_speed }
  else if any_direction_pressed action_state then
    { cam with speed := cam.speed + cam_params.acceleration * delta_seconds }
  else
    { cam with speed := cam_params.default_speed, angular_speed := cam_params.default_speed }

/-- Everything lib.rs movable_camera reads during one frame: the action state,
the frame's mouse-motion deltas, the frame's scroll-wheel y deltas, the primary
window size and the frame's elapsed seconds. -/
structure FrameInput where
  action_state : ActionState
  motion : List Vec2
  scroll_events : List ℝ
  window_size : Vec2
  delta_seconds : ℝ

/-- The mutable state movable_camera acts on: the camera (child) transform,
the pivot (parent) transform and the MovableCamera component. -/
structure CameraWorld where
  transform_child : Transform
  transform_parent : Transform
  cam : MovableCamera

/-- rotation_move accumulation (lib.rs lines 252-254). -/
def sum_motion (events : List Vec2) : Vec2 := events.foldl Vec2.add Vec2.zero

/-- scroll accumulation (lib.rs lines 257-259). -/
def sum_scroll (events : List ℝ) : ℝ := events.foldl (fun acc y => acc + y) 0

/-- The raw direction vector of free flight before normalization
(lib.rs lines 308-316). -/
def raw_translate_move (action_state : ActionState) : Vec3 :=
  ⟨net_movement action_state FlyingCamAction.Right FlyingCamAction.Left,
   net_movement action_state FlyingCamAction.Down FlyingCamAction.Up,
   net_movement action_state FlyingCamAction.Back FlyingCamAction.Forward⟩

/-- lib.rs movable_camera, as a pure frame step on CameraWorld. -/
def movable_camera (cam_params : MovableCameraParams) (input : FrameInput)
    (w : CameraWorld) : CameraWorld :=
  let action_state := input.action_state
  let w :=
    if w.cam.focused then
      if any_direction_pressed action_state then
        let zoom := w.transform_child.translation.z
        let transform_child :=
          { w.transform_parent with
            translation :=
              (w.transform_parent.translation.add (Vec3.smul zoom w.transform_parent.back)) }
        { transform_child := transform_child, transform_parent := Transform.default,
          cam := { w.cam with focused := false } }
      else w
    else if action_state.just_pressed FlyingCamAction.Focus then
      { transform_child := Transform.default, transform_parent := w.transform_child,
        cam := { w.cam with focused := true } }
    else w
  let rotation_move :=
    if action_state.pressed FlyingCamAction.Secondary then sum_motion input.motion
    else Vec2.zero
  let scroll := sum_scroll input.scroll_events
  if w.cam.focused then
    let w :=
      if 0 < rotation_move.length_squared then
        { w with transform_parent :=
            { w.transform_parent with rotation :=
                (rotate_cam_quat input.window_size rotation_move w.cam.angular_speed
                  w.transform_parent.rotation) } }
      else w
    if 0 < |scroll| then
      { w with transform_child :=
          { w.transform_child with translation :=
              ((w.transform_child.translation.sub
                ((((Vec3.mk 0 0 1).muls cam_params.scroll_snap).muls scroll).muls
                  w.cam.speed)).vmax (Vec3.mk 0 0 0)) } }
    else w
  else
    let w :=
      if 0 < rotation_move.length_squared then
        { w with transform_child :=
            { w.transform_child with rotation :=
                (rotate_cam_quat input.window_size rotation_move w.cam.angular_speed
                  w.transform_child.rotation) } }
      else w
    let w :=
      if 0 < |scroll| then
        { w with transform_child :=
            { w.transform_child with translation :=
                (w.transform_child.translation.add
                  (((w.transform_child.forward.muls cam_params.scroll_snap).muls scroll).muls
                    w.cam.speed)) } }
      else w
    let translate_move := (raw_translate_move action_state).normalize_or_zero
    if 0 < translate_move.length_squared then
      let tm := (translate_move.muls input.delta_seconds).muls w.cam.speed
      let transform_clone := w.transform_child
      { w with transform_child :=
          { w.transform_child with translation :=
              (((w.transform_child.translation.add (transform_clone.left.muls tm.x)).add
                (transform_clone.up.muls tm.y)).add
                (transform_clone.forward.muls tm.z)) } }
    else w

/-! Concrete action states used by witnesses and counterexamples. -/

def no_actions : ActionState := ⟨fun _ => false, fun _ => false⟩

def forward_held : ActionState :=
  ⟨fun a => match a with | FlyingCamAction.Forward => true | _ => false, fun _ => false⟩

def right_held : ActionState :=
  ⟨fun a => match a with | FlyingCamAction.Right => true | _ => false, fun _ => false⟩

def up_held : ActionState :=
  ⟨fun a => match a with | FlyingCamAction.Up => true | _ => false, fun _ => false⟩

def focus_edge : ActionState :=
  ⟨fun _ => false, fun a => match a with | FlyingCamAction.Focus => true | _ => false⟩

def adjust_speed_edge : ActionState :=
  ⟨fun a => match a with | FlyingCamAction.Forward => true | _ => false,
   fun a => match a with | FlyingCamAction.AdjustSpeed => true | _ => false⟩

def adjust_speed_edge_idle : ActionState :=
  ⟨fun _ => false, fun a => match a with | FlyingCamAction.AdjustSpeed => true | _ => false⟩

/-! Helper lemmas about clampf, angles and the limit_pitch pieces. -/

theorem clampf_le (v lo hi : ℝ) : clampf v lo hi ≤ hi := min_le_right _ _

theorem le_clampf (v lo hi : ℝ) (h : lo ≤ hi) : lo ≤ clampf v lo hi :=
  le_min (le_max_right _ _) h

theorem clampf_of_mem (v lo hi : ℝ) (h1 : lo ≤ v) (h2 : v ≤ hi) : clampf v lo hi = v := by
  unfold clampf
  rw [max_eq_left h1, min_eq_left h2]

theorem quarter_tau_eq : quarter_tau = Real.pi / 2 := by
  unfold quarter_tau TAU
  ring

theorem exists_sin_cos (s c : ℝ) (h : s ^ 2 + c ^ 2 = 1) :
    ∃ θ : ℝ, Real.sin θ = s ∧ Real.cos θ = c := by
  have hc1 : -1 ≤ c := by nlinarith [sq_nonneg s, sq_nonneg (c + 1)]
  have hc2 : c ≤ 1 := by nlinarith [sq_nonneg s, sq_nonneg (c - 1)]
  rcases le_or_lt 0 s with hs | hs
  · refine ⟨Real.arccos c, ?_, Real.cos_arccos hc1 hc2⟩
    rw [Real.sin_arccos, show (1 : ℝ) - c ^ 2 = s ^ 2 by linarith, Real.sqrt_sq hs]
  · refine ⟨-Real.arccos c, ?_, by rw [Real.cos_neg]; exact Real.cos_arccos hc1 hc2⟩
    rw [Real.sin_neg, Real.sin_arccos, show (1 : ℝ) - c ^ 2 = s ^ 2 by linarith,
      Real.sqrt_sq_eq_abs, abs_of_neg hs, neg_neg]

theorem div_norm_unit (y w : ℝ) (h : y ^ 2 + w ^ 2 ≠ 0) :
    (y / Real.sqrt (y ^ 2 + w ^ 2)) ^ 2 + (w / Real.sqrt (y ^ 2 + w ^ 2)) ^ 2 = 1 := by
  have hpos : 0 < y ^ 2 + w ^ 2 := lt_of_le_of_ne (by positivity) (Ne.symm h)
  rw [div_pow, div_pow, div_add_div_same, Real.sq_sqrt hpos.le, div_self h]

theorem limit_pitch_qy_eq (tq : Quat) :
    limit_pitch_qy tq =
      ⟨0, tq.y / Real.sqrt (tq.y ^ 2 + tq.w ^ 2), 0, tq.w / Real.sqrt (tq.y ^ 2 + tq.w ^ 2)⟩ := by
  unfold limit_pitch_qy Quat.normalize Quat.length_squared
  have harg : (0 : ℝ) * 0 + tq.y * tq.y + 0 * 0 + tq.w * tq.w = tq.y ^ 2 + tq.w ^ 2 := by ring
  dsimp
  rw [harg]
  ext <;> simp

theorem limit_pitch_qy_unit (tq : Quat) (h : tq.y ^ 2 + tq.w ^ 2 ≠ 0) :
    (limit_pitch_qy tq).length_squared = 1 := by
  rw [limit_pitch_qy_eq]
  unfold Quat.length_squared
  dsimp
  linear_combination div_norm_unit tq.y tq.w h

theorem limit_pitch_clamped_mem (tq : Quat) :
    -(Real.pi / 2) ≤ limit_pitch_clamped tq ∧ limit_pitch_clamped tq ≤ Real.pi / 2 := by
  unfold limit_pitch_clamped
  rw [quarter_tau_eq]
  exact ⟨le_clampf _ _ _ (by linarith [Real.pi_pos]), clampf_le _ _ _⟩

theorem limit_pitch_decomp_aux (tq : Quat) (h : tq.y ^ 2 + tq.w ^ 2 ≠ 0) :
    ∃ a b : ℝ, limit_pitch tq = (Quat.from_rotation_y a).mul (Quat.from_rotation_x b) ∧
      |b| ≤ Real.pi / 2 := by
  obtain ⟨θ, hsin, hcos⟩ := exists_sin_cos (tq.y / Real.sqrt (tq.y ^ 2 + tq.w ^ 2))
    (tq.w / Real.sqrt (tq.y ^ 2 + tq.w ^ 2)) (div_norm_unit tq.y tq.w h)
  refine ⟨2 * θ, limit_pitch_clamped tq, ?_, ?_⟩
  · unfold limit_pitch
    congr 1
    rw [limit_pitch_qy_eq]
    unfold Quat.from_rotation_y
    rw [show 2 * θ / 2 = θ by ring, hsin, hcos]
  · exact abs_le.mpr (limit_pitch_clamped_mem tq)

/-- Claim C1: for every input rotation with zero roll (a pure yaw-pitch
composition) and a well-defined yaw component, the rotation returned by
limit_pitch decomposes as yaw about world Y composed with pitch about local X
with a pitch angle of magnitude at most pi/2, so the camera never flips past
vertical. -/
theorem limit_pitch_bounds_pitch (tq : Quat)
    (hroll : ∃ a b : ℝ, tq = (Quat.from_rotation_y a).mul (Quat.from_rotation_x b))
    (hyaw : tq.y ^ 2 + tq.w ^ 2 ≠ 0) :
    ∃ a b : ℝ, limit_pitch tq = (Quat.from_rotation_y a).mul (Quat.from_rotation_x b) ∧
      |b| ≤ Real.pi / 2 :=
  limit_pitch_decomp_aux tq hyaw

/-- Claim C1 witness: the identity rotation satisfies both hypotheses and the
bounded-pitch decomposition. -/
theorem limit_pitch_bounds_pitch_witness :
    (∃ a b : ℝ, Quat.mk 0 0 0 1 = (Quat.from_rotation_y a).mul (Quat.from_rotation_x b)) ∧
    (Quat.mk 0 0 0 1).y ^ 2 + (Quat.mk 0 0 0 1).w ^ 2 ≠ 0 ∧
    (∃ a b : ℝ, limit_pitch (Quat.mk 0 0 0 1) =
      (Quat.from_rotation_y a).mul (Quat.from_rotation_x b) ∧ |b| ≤ Real.pi / 2) := by
  have hroll : ∃ a b : ℝ, Quat.mk 0 0 0 1 =
      (Quat.from_rotation_y a).mul (Quat.from_rotation_x b) := by
    refine ⟨0, 0, ?_⟩
    unfold Quat.from_rotation_y Quat.from_rotation_x Quat.mul
    norm_num
  exact ⟨hroll, by norm_num, limit_pitch_bounds_pitch _ hroll (by norm_num)⟩

/-- Claim C2: rotate_cam_quat equals limit_pitch of yaw-then-pitch applied to
the input, with yaw about world Y by -(motion.x / window.x) * 2 pi * speed
applied on the left and pitch about local X by -(motion.y / window.y) * pi *
speed applied on the right. -/
theorem rotate_cam_quat_spec (window_size motion : Vec2) (speed : ℝ) (q : Quat)
    (hx : 0 < window_size.x) (hy : 0 < window_size.y) :
    rotate_cam_quat window_size motion speed q =
      limit_pitch
        (((Quat.from_rotation_y (-(motion.x / window_size.x) * (2 * Real.pi) * speed)).mul q).mul
          (Quat.from_rotation_x (-(motion.y / window_size.y) * Real.pi * speed))) := by
  unfold rotate_cam_quat TAU
  congr 3 <;> ring

/-- Claim C2 witness: the decomposition at a concrete window size, motion,
speed and rotation. -/
theorem rotate_cam_quat_spec_witness :
    0 < (Vec2.mk 1 1).x ∧ 0 < (Vec2.mk 1 1).y ∧
    rotate_cam_quat (Vec2.mk 1 1) (Vec2.mk 0 0) 1 (Quat.mk 0 0 0 1) =
      limit_pitch
        (((Quat.from_rotation_y (-((Vec2.mk 0 0).x / (Vec2.mk 1 1).x) * (2 * Real.pi) * 1)).mul
          (Quat.mk 0 0 0 1)).mul
          (Quat.from_rotation_x (-((Vec2.mk 0 0).y / (Vec2.mk 1 1).y) * Real.pi * 1))) :=
  ⟨by norm_num, by norm_num,
    rotate_cam_quat_spec (Vec2.mk 1 1) (Vec2.mk 0 0) 1 (Quat.mk 0 0 0 1)
      (by norm_num) (by norm_num)⟩

/-! Toward C10: limit_pitch yields a unit quaternion exactly on inputs whose
y and w components are not both zero. -/

theorem length_squared_mul (a b : Quat) :
    (a.mul b).length_squared = a.length_squared * b.length_squared := by
  unfold Quat.mul Quat.length_squared
  dsimp
  ring

theorem from_rotation_x_unit (angle : ℝ) : (Quat.from_rotation_x angle).length_squared = 1 := by
  unfold Quat.from_rotation_x Quat.length_squared
  dsimp
  linear_combination Real.sin_sq_add_cos_sq (angle / 2)

theorem limit_pitch_at_pitch_pi : limit_pitch (Quat.mk 1 0 0 0) = Quat.mk 0 0 0 0 := by
  have hqy : limit_pitch_qy (Quat.mk 1 0 0 0) = Quat.mk 0 0 0 0 := by
    rw [limit_pitch_qy_eq]
    norm_num
  have hang : limit_pitch_angle (Quat.mk 1 0 0 0) = 0 := by
    unfold limit_pitch_angle limit_pitch_qp
    rw [hqy]
    unfold Quat.inverse Quat.conjugate Quat.mul Quat.xyz Vec3.dot
    norm_num [Real.arcsin_zero]
  have hcl : limit_pitch_clamped (Quat.mk 1 0 0 0) = 0 := by
    unfold limit_pitch_clamped
    rw [hang, quarter_tau_eq]
    exact clampf_of_mem _ _ _ (by linarith [Real.pi_pos]) (by linarith [Real.pi_pos])
  unfold limit_pitch
  rw [hqy, hcl]
  unfold Quat.from_rotation_x Quat.mul
  norm_num

/-- Claim C10: limit_pitch is degenerate exactly at quaternions whose y and w
components are both zero. The pitch rotation by pi is such an input: there the
yaw extraction normalizes the zero quaternion (NaN components in f32, the
zero quaternion in this real embedding) and the result is not a rotation. For
every input with (y, w) not both zero the result is a unit quaternion, hence
a well-defined finite rotation. -/
theorem limit_pitch_domain :
    ((Quat.from_rotation_x Real.pi).y = 0 ∧ (Quat.from_rotation_x Real.pi).w = 0 ∧
      limit_pitch (Quat.from_rotation_x Real.pi) = Quat.mk 0 0 0 0) ∧
    ∀ tq : Quat, tq.y ^ 2 + tq.w ^ 2 ≠ 0 → (limit_pitch tq).length_squared = 1 := by
  have hpi : Quat.from_rotation_x Real.pi = Quat.mk 1 0 0 0 := by
    unfold Quat.from_rotation_x
    rw [Real.sin_pi_div_two, Real.cos_pi_div_two]
  constructor
  · rw [hpi]
    exact ⟨rfl, rfl, limit_pitch_at_pitch_pi⟩
  · intro tq h
    unfold limit_pitch
    rw [length_squared_mul, limit_pitch_qy_unit tq h, from_rotation_x_unit, one_mul]

/-- Claim C10 witness: the identity rotation has (y, w) not both zero and
limit_pitch returns a unit quaternion there. -/
theorem limit_pitch_domain_witness :
    (Quat.mk 0 0 0 1).y ^ 2 + (Quat.mk 0 0 0 1).w ^ 2 ≠ 0 ∧
      (limit_pitch (Quat.mk 0 0 0 1)).length_squared = 1 :=
  ⟨by norm_num, limit_pitch_domain.2 (Quat.mk 0 0 0 1) (by norm_num)⟩

/-! Toward C9: idempotence of limit_pitch. -/

theorem cos_half_clamped_pos (tq : Quat) : 0 < Real.cos (limit_pitch_clamped tq / 2) := by
  obtain ⟨h1, h2⟩ := limit_pitch_clamped_mem tq
  apply Real.cos_pos_of_mem_Ioo
  exact Set.mem_Ioo.mpr ⟨by linarith [Real.pi_pos], by linarith [Real.pi_pos]⟩

theorem limit_pitch_explicit (tq : Quat) :
    limit_pitch tq = Quat.mk
      (tq.w / Real.sqrt (tq.y ^ 2 + tq.w ^ 2) * Real.sin (limit_pitch_clamped tq / 2))
      (tq.y / Real.sqrt (tq.y ^ 2 + tq.w ^ 2) * Real.cos (limit_pitch_clamped tq / 2))
      (-(tq.y / Real.sqrt (tq.y ^ 2 + tq.w ^ 2) * Real.sin (limit_pitch_clamped tq / 2)))
      (tq.w / Real.sqrt (tq.y ^ 2 + tq.w ^ 2) * Real.cos (limit_pitch_clamped tq / 2)) := by
  unfold limit_pitch
  rw [limit_pitch_qy_eq]
  unfold Quat.mul Quat.from_rotation_x
  ext <;> dsimp <;> ring

theorem normalize_yw_smul (y w k : ℝ) (hk : 0 < k) (h1 : y ^ 2 + w ^ 2 = 1) :
    (Quat.mk 0 (y * k) 0 (w * k)).normalize = Quat.mk 0 y 0 w := by
  unfold Quat.normalize Quat.length_squared
  have harg : (0 : ℝ) * 0 + y * k * (y * k) + 0 * 0 + w * k * (w * k) = k ^ 2 := by
    linear_combination k ^ 2 * h1
  dsimp
  rw [harg, Real.sqrt_sq hk.le]
  ext <;> dsimp
  · exact zero_div k
  · exact mul_div_cancel_right₀ y hk.ne'
  · exact zero_div k
  · exact mul_div_cancel_right₀ w hk.ne'

theorem limit_pitch_qy_idem (tq : Quat) (h : tq.y ^ 2 + tq.w ^ 2 ≠ 0) :
    limit_pitch_qy (limit_pitch tq) = limit_pitch_qy tq := by
  rw [limit_pitch_qy_eq tq]
  unfold limit_pitch_qy
  rw [limit_pitch_explicit tq]
  dsimp
  exact normalize_yw_smul _ _ _ (cos_half_clamped_pos tq) (div_norm_unit tq.y tq.w h)

theorem conj_mul_cancel (q r : Quat) (h : q.length_squared = 1) :
    (q.inverse).mul (q.mul r) = r := by
  unfold Quat.inverse Quat.conjugate Quat.mul
  unfold Quat.length_squared at h
  ext <;> dsimp
  · linear_combination r.x * h
  · linear_combination r.y * h
  · linear_combination r.z * h
  · linear_combination r.w * h

theorem limit_pitch_qp_idem (tq : Quat) (h : tq.y ^ 2 + tq.w ^ 2 ≠ 0) :
    limit_pitch_qp (limit_pitch tq) =
      Quat.from_rotation_x (limit_pitch_clamped tq) := by
  unfold limit_pitch_qp
  rw [limit_pitch_qy_idem tq h,
    show limit_pitch tq =
      (limit_pitch_qy tq).mul (Quat.from_rotation_x (limit_pitch_clamped tq)) from rfl]
  exact conj_mul_cancel _ _ (limit_pitch_qy_unit tq h)

theorem limit_pitch_angle_idem (tq : Quat) (h : tq.y ^ 2 + tq.w ^ 2 ≠ 0) :
    limit_pitch_angle (limit_pitch tq) = limit_pitch_clamped tq := by
  unfold limit_pitch_angle
  rw [limit_pitch_qp_idem tq h]
  unfold Quat.from_rotation_x Quat.xyz Vec3.dot
  dsimp
  obtain ⟨h1, h2⟩ := limit_pitch_clamped_mem tq
  rw [show (1 : ℝ) * Real.sin (limit_pitch_clamped tq / 2) + 0 * 0 + 0 * 0
      = Real.sin (limit_pitch_clamped tq / 2) by ring,
    Real.arcsin_sin (by linarith [Real.pi_pos]) (by linarith [Real.pi_pos])]
  ring

theorem limit_pitch_clamped_idem (tq : Quat) (h : tq.y ^ 2 + tq.w ^ 2 ≠ 0) :
    limit_pitch_clamped (limit_pitch tq) = limit_pitch_clamped tq := by
  rw [show limit_pitch_clamped (limit_pitch tq)
      = clampf (limit_pitch_angle (limit_pitch tq)) (-quarter_tau) quarter_tau from rfl,
    limit_pitch_angle_idem tq h, quarter_tau_eq]
  obtain ⟨h1, h2⟩ := limit_pitch_clamped_mem tq
  exact clampf_of_mem _ _ _ h1 h2

theorem limit_pitch_idem_aux (tq : Quat) (h : tq.y ^ 2 + tq.w ^ 2 ≠ 0) :
    limit_pitch (limit_pitch tq) = limit_pitch tq := by
  conv_lhs => rw [show limit_pitch (limit_pitch tq)
    = (limit_pitch_qy (limit_pitch tq)).mul
        (Quat.from_rotation_x (limit_pitch_clamped (limit_pitch tq))) from rfl]
  rw [limit_pitch_qy_idem tq h, limit_pitch_clamped_idem tq h]
  rfl

/-- Claim C9: limit_pitch is idempotent on every rotation with zero roll (a
pure yaw-pitch composition) and a well-defined yaw component: applying it
twice equals applying it once, exactly in this real-number embedding. -/
theorem limit_pitch_idempotent (tq : Quat)
    (hroll : ∃ a b : ℝ, tq = (Quat.from_rotation_y a).mul (Quat.from_rotation_x b))
    (hyaw : tq.y ^ 2 + tq.w ^ 2 ≠ 0) :
    limit_pitch (limit_pitch tq) = limit_pitch tq :=
  limit_pitch_idem_aux tq hyaw

/-- Claim C9 witness: idempotence at the identity rotation, which satisfies
both hypotheses. -/
theorem limit_pitch_idempotent_witness :
    (∃ a b : ℝ, Quat.mk 0 0 0 1 = (Quat.from_rotation_y a).mul (Quat.from_rotation_x b)) ∧
    (Quat.mk 0 0 0 1).y ^ 2 + (Quat.mk 0 0 0 1).w ^ 2 ≠ 0 ∧
    limit_pitch (limit_pitch (Quat.mk 0 0 0 1)) = limit_pitch (Quat.mk 0 0 0 1) := by
  have hroll : ∃ a b : ℝ, Quat.mk 0 0 0 1 =
      (Quat.from_rotation_y a).mul (Quat.from_rotation_x b) := by
    refine ⟨0, 0, ?_⟩
    unfold Quat.from_rotation_y Quat.from_rotation_x Quat.mul
    norm_num
  exact ⟨hroll, by norm_num, limit_pitch_idempotent _ hroll (by norm_num)⟩

/-- Claim C6: with default_speed = 1.0 and acceleration = 1.0, while not slow
and with Forward held, each adjust_cam_speed frame adds acceleration times
elapsed_seconds to speed, so two 1-second steps starting from 1.0 yield
speed = 3.0; on the next frame with no directional action held (and not slow),
speed resets to default_speed = 1.0. -/
theorem speed_ramp_and_reset :
    (adjust_cam_speed MovableCameraParams.default 1 forward_held MovableCamera.default).speed
        = 2 ∧
    (adjust_cam_speed MovableCameraParams.default 1 forward_held
        (adjust_cam_speed MovableCameraParams.default 1 forward_held
          MovableCamera.default)).speed = 3 ∧
    (adjust_cam_speed MovableCameraParams.default 1 no_actions
        (adjust_cam_speed MovableCameraParams.default 1 forward_held
          (adjust_cam_speed MovableCameraParams.default 1 forward_held
            MovableCamera.default))).speed = 1 ∧
    (adjust_cam_speed MovableCameraParams.default 1 no_actions
        (adjust_cam_speed MovableCameraParams.default 1 forward_held
          (adjust_cam_speed MovableCameraParams.default 1 forward_held
            MovableCamera.default))).speed = MovableCameraParams.default.default_speed := by
  norm_num [adjust_cam_speed, any_direction_pressed, forward_held, no_actions,
    MovableCamera.default, MovableCameraParams.default]

/-- Claim C7: a rising edge of the AdjustSpeed action while slow is false sets
slow to true and, in that same frame, forces both speed and angular_speed to
slow_speed regardless of any movement actions held; a second rising edge (on a
frame with no directional action held) sets slow back to false and restores
both speed and angular_speed to default_speed. -/
theorem slow_toggle (p : MovableCameraParams) (cam : MovableCamera) (dt1 dt2 : ℝ)
    (a1 a2 : ActionState)
    (h0 : cam.slow = false)
    (h1 : a1.just_pressed FlyingCamAction.AdjustSpeed = true)
    (h2 : a2.just_pressed FlyingCamAction.AdjustSpeed = true)
    (h3 : any_direction_pressed a2 = false) :
    ((adjust_cam_speed p dt1 a1 cam).slow = true ∧
      (adjust_cam_speed p dt1 a1 cam).speed = p.slow_speed ∧
      (adjust_cam_speed p dt1 a1 cam).angular_speed = p.slow_speed) ∧
    ((adjust_cam_speed p dt2 a2 (adjust_cam_speed p dt1 a1 cam)).slow = false ∧
      (adjust_cam_speed p dt2 a2 (adjust_cam_speed p dt1 a1 cam)).speed = p.default_speed ∧
      (adjust_cam_speed p dt2 a2 (adjust_cam_speed p dt1 a1 cam)).angular_speed
        = p.default_speed) := by
  have hfirst : adjust_cam_speed p dt1 a1 cam =
      { cam with slow := true, speed := p.slow_speed, angular_speed := p.slow_speed } := by
    simp [adjust_cam_speed, h0, h1]
  rw [hfirst]
  simp [adjust_cam_speed, h2, h3]

/-- Claim C7 witness: the slow toggle at a concrete camera and concrete inputs. -/
theorem slow_toggle_witness :
    (MovableCamera.default.slow = false ∧
      adjust_speed_edge.just_pressed FlyingCamAction.AdjustSpeed = true ∧
      adjust_speed_edge_idle.just_pressed FlyingCamAction.AdjustSpeed = true ∧
      any_direction_pressed adjust_speed_edge_idle = false) ∧
    ((adjust_cam_speed MovableCameraParams.default 1 adjust_speed_edge
        MovableCamera.default).slow = true ∧
      (adjust_cam_speed MovableCameraParams.default 1 adjust_speed_edge
        MovableCamera.default).speed = MovableCameraParams.default.slow_speed ∧
      (adjust_cam_speed MovableCameraParams.default 1 adjust_speed_edge
        MovableCamera.default).angular_speed = MovableCameraParams.default.slow_speed) ∧
    ((adjust_cam_speed MovableCameraParams.default 1 adjust_speed_edge_idle
        (adjust_cam_speed MovableCameraParams.default 1 adjust_speed_edge
          MovableCamera.default)).slow = false ∧
      (adjust_cam_speed MovableCameraParams.default 1 adjust_speed_edge_idle
        (adjust_cam_speed MovableCameraParams.default 1 adjust_speed_edge
          MovableCamera.default)).speed = MovableCameraParams.default.default_speed ∧
      (adjust_cam_speed MovableCameraParams.default 1 adjust_speed_edge_idle
        (adjust_cam_speed MovableCameraParams.default 1 adjust_speed_edge
          MovableCamera.default)).angular_speed = MovableCameraParams.default.default_speed) := by
  have h := slow_toggle MovableCameraParams.default MovableCamera.default 1 1
    adjust_speed_edge adjust_speed_edge_idle rfl rfl rfl rfl
  exact ⟨⟨rfl, rfl, rfl, rfl⟩, h.1, h.2⟩

/-- One adjust_cam_speed frame keeps angular_speed inside the two-element set
consisting of default_speed and slow_speed: no branch ever ramps it. -/
theorem angular_speed_invariant_step (p : MovableCameraParams) (dt : ℝ) (a : ActionState)
    (cam : MovableCamera)
    (h : cam.angular_speed = p.default_speed ∨ cam.angular_speed = p.slow_speed) :
    (adjust_cam_speed p dt a cam).angular_speed = p.default_speed ∨
      (adjust_cam_speed p dt a cam).angular_speed = p.slow_speed := by
  unfold adjust_cam_speed
  dsimp only
  split_ifs <;> simp_all

/-- Claim C8: starting from the default camera state, after any sequence of
adjust_cam_speed frames the angular_speed field equals either default_speed or
slow_speed: the acceleration ramp branch increases speed but never
angular_speed. -/
theorem angular_speed_invariant (frames : List (ℝ × ActionState)) :
    (frames.foldl (fun c f => adjust_cam_speed MovableCameraParams.default f.1 f.2 c)
        MovableCamera.default).angular_speed = MovableCameraParams.default.default_speed ∨
    (frames.foldl (fun c f => adjust_cam_speed MovableCameraParams.default f.1 f.2 c)
        MovableCamera.default).angular_speed = MovableCameraParams.default.slow_speed := by
  have key : ∀ (fs : List (ℝ × ActionState)) (cam : MovableCamera),
      (cam.angular_speed = MovableCameraParams.default.default_speed ∨
        cam.angular_speed = MovableCameraParams.default.slow_speed) →
      ((fs.foldl (fun c f => adjust_cam_speed MovableCameraParams.default f.1 f.2 c)
          cam).angular_speed = MovableCameraParams.default.default_speed ∨
        (fs.foldl (fun c f => adjust_cam_speed MovableCameraParams.default f.1 f.2 c)
          cam).angular_speed = MovableCameraParams.default.slow_speed) := by
    intro fs
    induction fs with
    | nil => intro cam h; exact h
    | cons f fs ih =>
      intro cam h
      exact ih _ (angular_speed_invariant_step _ _ _ _ h)
  exact key frames MovableCamera.default (Or.inl rfl)

/-- Claim C8 witness: the invariant at a concrete one-frame sequence. -/
theorem angular_speed_invariant_witness :
    (([((1 : ℝ), forward_held)]).foldl
        (fun c f => adjust_cam_speed MovableCameraParams.default f.1 f.2 c)
        MovableCamera.default).angular_speed = MovableCameraParams.default.default_speed ∨
    (([((1 : ℝ), forward_held)]).foldl
        (fun c f => adjust_cam_speed MovableCameraParams.default f.1 f.2 c)
        MovableCamera.default).angular_speed = MovableCameraParams.default.slow_speed :=
  angular_speed_invariant [((1 : ℝ), forward_held)]

/-! Toward C3 and C4: frame-level facts about movable_camera. -/

theorem add_smul_zero (v u : Vec3) : v.add (Vec3.smul 0 u) = v := by
  unfold Vec3.add Vec3.smul
  ext <;> dsimp <;> ring

theorem translate_muls_zero (t l u f v : Vec3) (s : ℝ) :
    ((t.add (l.muls ((v.muls 0).muls s).x)).add (u.muls ((v.muls 0).muls s).y)).add
      (f.muls ((v.muls 0).muls s).z) = t := by
  unfold Vec3.add Vec3.muls
  ext <;> dsimp <;> ring

/-- Claim C3: focus round-trip. Starting in Free mode with camera local
transform T and pivot at identity, a rising edge of the Focus action sets the
pivot transform to T, the camera transform to identity, and focused to true.
A subsequent frame in which a directional action is held (taken here with
zero elapsed seconds so the free-flight translation of that same frame is
zero, no mouse motion and no scroll) sets the camera transform back to T plus
the zoom offset along the pivot's back axis, which is exactly T because the
camera's local z is still 0, resets the pivot to identity, and sets focused
to false. -/
theorem focus_round_trip (cam_params : MovableCameraParams) (T : Transform)
    (cam0 : MovableCamera) (a2 : ActionState) (ws : Vec2) (dt1 : ℝ)
    (hfree : cam0.focused = false)
    (hdir : any_direction_pressed a2 = true) :
    ((movable_camera cam_params ⟨focus_edge, [], [], ws, dt1⟩
        ⟨T, Transform.default, cam0⟩).transform_parent = T ∧
      (movable_camera cam_params ⟨focus_edge, [], [], ws, dt1⟩
        ⟨T, Transform.default, cam0⟩).transform_child = Transform.default ∧
      (movable_camera cam_params ⟨focus_edge, [], [], ws, dt1⟩
        ⟨T, Transform.default, cam0⟩).cam.focused = true) ∧
    ((movable_camera cam_params ⟨a2, [], [], ws, 0⟩
        (movable_camera cam_params ⟨focus_edge, [], [], ws, dt1⟩
          ⟨T, Transform.default, cam0⟩)).transform_child = T ∧
      (movable_camera cam_params ⟨a2, [], [], ws, 0⟩
        (movable_camera cam_params ⟨focus_edge, [], [], ws, dt1⟩
          ⟨T, Transform.default, cam0⟩)).transform_parent = Transform.default ∧
      (movable_camera cam_params ⟨a2, [], [], ws, 0⟩
        (movable_camera cam_params ⟨focus_edge, [], [], ws, dt1⟩
          ⟨T, Transform.default, cam0⟩)).cam.focused = false) := by
  have h1 : movable_camera cam_params ⟨focus_edge, [], [], ws, dt1⟩
      ⟨T, Transform.default, cam0⟩
      = ⟨Transform.default, T, { cam0 with focused := true }⟩ := by
    unfold movable_camera
    simp [hfree, focus_edge, sum_motion, sum_scroll, Vec2.length_squared, Vec2.zero]
  have h2 : movable_camera cam_params ⟨a2, [], [], ws, 0⟩
      ⟨Transform.default, T, { cam0 with focused := true }⟩
      = ⟨T, Transform.default, { cam0 with focused := false }⟩ := by
    unfold movable_camera
    simp only [hdir]
    simp [sum_motion, sum_scroll, Vec2.length_squared, Vec2.zero, ite_self,
      Transform.default, Vec3.zero, add_smul_zero, translate_muls_zero]
  rw [h1, h2]
  exact ⟨⟨rfl, rfl, rfl⟩, rfl, rfl, rfl⟩

/-- Claim C3 witness: the round trip at concrete parameters, transform,
camera state and a frame holding Forward. -/
theorem focus_round_trip_witness :
    (MovableCamera.default.focused = false ∧
      any_direction_pressed forward_held = true) ∧
    ((movable_camera MovableCameraParams.default ⟨focus_edge, [], [], Vec2.mk 1 1, 1⟩
        ⟨Transform.default, Transform.default, MovableCamera.default⟩).transform_parent
          = Transform.default ∧
      (movable_camera MovableCameraParams.default ⟨focus_edge, [], [], Vec2.mk 1 1, 1⟩
        ⟨Transform.default, Transform.default, MovableCamera.default⟩).transform_child
          = Transform.default ∧
      (movable_camera MovableCameraParams.default ⟨focus_edge, [], [], Vec2.mk 1 1, 1⟩
        ⟨Transform.default, Transform.default, MovableCamera.default⟩).cam.focused = true) ∧
    ((movable_camera MovableCameraParams.default ⟨forward_held, [], [], Vec2.mk 1 1, 0⟩
        (movable_camera MovableCameraParams.default ⟨focus_edge, [], [], Vec2.mk 1 1, 1⟩
          ⟨Transform.default, Transform.default, MovableCamera.default⟩)).transform_child
          = Transform.default ∧
      (movable_camera MovableCameraParams.default ⟨forward_held, [], [], Vec2.mk 1 1, 0⟩
        (movable_camera MovableCameraParams.default ⟨focus_edge, [], [], Vec2.mk 1 1, 1⟩
          ⟨Transform.default, Transform.default, MovableCamera.default⟩)).transform_parent
          = Transform.default ∧
      (movable_camera MovableCameraParams.default ⟨forward_held, [], [], Vec2.mk 1 1, 0⟩
        (movable_camera MovableCameraParams.default ⟨focus_edge, [], [], Vec2.mk 1 1, 1⟩
          ⟨Transform.default, Transform.default, MovableCamera.default⟩)).cam.focused
          = false) :=
  ⟨⟨rfl, rfl⟩,
    focus_round_trip MovableCameraParams.default Transform.default MovableCamera.default
      forward_held (Vec2.mk 1 1) 1 rfl rfl⟩

/-- Claim C4: while focused (remaining focused through the frame because no
directional action is held), every frame whose summed scroll is nonzero
leaves each component of the camera's local translation at least 0: the clamp
is a componentwise max against the zero vector, so zooming in can drive the
camera's local z toward 0 but never below it. -/
theorem orbit_zoom_clamp (cam_params : MovableCameraParams) (input : FrameInput)
    (w : CameraWorld)
    (hfoc : w.cam.focused = true)
    (hdir : any_direction_pressed input.action_state = false)
    (hscroll : sum_scroll input.scroll_events ≠ 0) :
    0 ≤ (movable_camera cam_params input w).transform_child.translation.x ∧
    0 ≤ (movable_camera cam_params input w).transform_child.translation.y ∧
    0 ≤ (movable_camera cam_params input w).transform_child.translation.z := by
  have habs : 0 < |sum_scroll input.scroll_events| := abs_pos.mpr hscroll
  unfold movable_camera
  simp only [hfoc, hdir, Bool.false_eq_true, if_true, if_false, ite_true, ite_false, habs]
  split_ifs <;>
    exact ⟨le_max_right _ _, le_max_right _ _, le_max_right _ _⟩

/-- Claim C4 witness: the componentwise floor at a concrete focused state and
a concrete scroll frame. -/
theorem orbit_zoom_clamp_witness :
    (({ MovableCamera.default with focused := true } : MovableCamera).focused = true ∧
      any_direction_pressed no_actions = false ∧
      sum_scroll [(1 : ℝ)] ≠ 0) ∧
    (0 ≤ (movable_camera MovableCameraParams.default ⟨no_actions, [], [(1 : ℝ)], Vec2.mk 1 1, 1⟩
        ⟨Transform.default, Transform.default,
          { MovableCamera.default with focused := true }⟩).transform_child.translation.x ∧
      0 ≤ (movable_camera MovableCameraParams.default ⟨no_actions, [], [(1 : ℝ)], Vec2.mk 1 1, 1⟩
        ⟨Transform.default, Transform.default,
          { MovableCamera.default with focused := true }⟩).transform_child.translation.y ∧
      0 ≤ (movable_camera MovableCameraParams.default ⟨no_actions, [], [(1 : ℝ)], Vec2.mk 1 1, 1⟩
        ⟨Transform.default, Transform.default,
          { MovableCamera.default with focused := true }⟩).transform_child.translation.z) := by
  have hs : sum_scroll [(1 : ℝ)] ≠ 0 := by
    simp [sum_scroll]
  exact ⟨⟨rfl, rfl, hs⟩,
    orbit_zoom_clamp MovableCameraParams.default ⟨no_actions, [], [(1 : ℝ)], Vec2.mk 1 1, 1⟩
      ⟨Transform.default, Transform.default, { MovableCamera.default with focused := true }⟩
      rfl rfl hs⟩

/-- Claim C5 counterexample: with only Right held the raw x component is -1
(the claim says +1), and with only Up held the raw y component is +1 (the
claim says -1). -/
theorem raw_direction_sign_counterexample :
    (raw_translate_move right_held).x = -1 ∧ ¬ (raw_translate_move right_held).x = 1 ∧
    (raw_translate_move up_held).y = 1 ∧ ¬ (raw_translate_move up_held).y = -1 := by
  norm_num [raw_translate_move, net_movement, right_held, up_held]

/-- Claim C5 amended: the raw direction vector has x component left minus
right (Left alone +1, Right alone -1) and y component up minus down (Up alone
+1, Down alone -1), so positive y means net upward input. -/
theorem raw_direction_signs (a : ActionState) :
    (a.pressed FlyingCamAction.Right = true → a.pressed FlyingCamAction.Left = false →
      (raw_translate_move a).x = -1) ∧
    (a.pressed FlyingCamAction.Left = true → a.pressed FlyingCamAction.Right = false →
      (raw_translate_move a).x = 1) ∧
    (a.pressed FlyingCamAction.Up = true → a.pressed FlyingCamAction.Down = false →
      (raw_translate_move a).y = 1) ∧
    (a.pressed FlyingCamAction.Down = true → a.pressed FlyingCamAction.Up = false →
      (raw_translate_move a).y = -1) := by
  refine ⟨fun h1 h2 => ?_, fun h1 h2 => ?_, fun h1 h2 => ?_, fun h1 h2 => ?_⟩ <;>
    simp [raw_translate_move, net_movement, h1, h2]

/-- Claim C5 witness: the amended sign convention at concrete action states. -/
theorem raw_direction_signs_witness :
    (right_held.pressed FlyingCamAction.Right = true ∧
      right_held.pressed FlyingCamAction.Left = false ∧
      (raw_translate_move right_held).x = -1) ∧
    (up_held.pressed FlyingCamAction.Up = true ∧
      up_held.pressed FlyingCamAction.Down = false ∧
      (raw_translate_move up_held).y = 1) :=
  ⟨⟨rfl, rfl, (raw_direction_signs right_held).1 rfl rfl⟩,
   ⟨rfl, rfl, (raw_direction_signs up_held).2.2.1 rfl rfl⟩⟩

end

end FlyCam
